import Mathlib

/-!
Verification of the shipment-pipeline core.

Shallow embedding of the data pipeline of the `fe-tech-test` repository:

* `src/utils/distanceCalculator.ts` — `fakeDistance`, `calculateJourneyLegs`,
  `getTransportModesString`;
* `src/utils/dataAggregator.ts` — `processCsvData`, `getGlobalWeightByMode`;
* `src/schemas/transportRowSchema.ts` — `TransportRowSchema` (Zod);
* `src/utils/csvParser.ts` — the per-row validation loop of `parseCsvFile`.

JavaScript finite numbers are embedded as exact rationals (`ℚ`); the special
values `Infinity`, `-Infinity` and `NaN` that matter to the weight-validation
code are embedded symbolically (`JsNum`).  Strings are Lean `String`s
(sequences of Unicode scalar values); where the source reads UTF-16 code units
(`charCodeAt`) the embedding computes them explicitly from the scalar value.
-/

/-! ## Data model (`src/types/index.ts`) -/

/-- `export type TransportMode = 'Road' | 'Sea'`. -/
inductive TransportMode where
  | Road
  | Sea
deriving DecidableEq

/-- `JourneyLeg`: one mode-homogeneous segment of a journey. -/
structure JourneyLeg where
  mode : TransportMode
  distance : ℚ
  weight : ℚ
deriving DecidableEq

/-- The `route` sub-object of a `Journey`. -/
structure JourneyRoute where
  origin : String
  destination : String
  originCountry : String
  destinationCountry : String
deriving DecidableEq

/-- `Journey`: the processed result of one validated CSV row. -/
structure Journey where
  id : String
  route : JourneyRoute
  weight : ℚ
  distance : ℚ
  legs : List JourneyLeg
  totalRoadWeight : ℚ
  totalSeaWeight : ℚ
deriving DecidableEq

instance : Inhabited Journey :=
  ⟨{ id := "", route := ⟨"", "", "", ""⟩, weight := 0, distance := 0, legs := [],
     totalRoadWeight := 0, totalSeaWeight := 0 }⟩

/-- The `route` sub-object of a `RouteGroup`. -/
structure RouteGroupRoute where
  origin : String
  destination : String
deriving DecidableEq

/-- `RouteGroup`: aggregated data for one table row. -/
structure RouteGroup where
  routeKey : String
  route : RouteGroupRoute
  distance : ℚ
  timesTaken : ℕ
  totalDistance : ℚ
  modes : String
  totalWeight : ℚ
  totalRoadWeight : ℚ
  totalSeaWeight : ℚ
  journeys : List Journey
deriving DecidableEq

/-- `ChartData`: rounded per-mode weight totals (`Math.round` yields integers). -/
structure ChartData where
  road : ℤ
  sea : ℤ
deriving DecidableEq

/-- `TransportRow`: a validated row as consumed by the aggregator
(`weightKg` is a finite positive number by the validator's contract). -/
structure TransportRow where
  origin : String
  originCountry : String
  destination : String
  destinationCountry : String
  weightKg : ℚ
deriving DecidableEq

/-! ## Distance calculator (`src/utils/distanceCalculator.ts`) -/

/-- `char.charCodeAt(0)` for a single-code-point JavaScript string `char`, as
produced by spreading a string (`[...str]` iterates by code points).  For a
basic-plane character this is the code point itself; for an astral character
it is the leading (high) surrogate of its UTF-16 encoding. -/
def charCodeAt0 (c : Char) : ℕ :=
  if c.toNat < 65536 then c.toNat else 55296 + (c.toNat - 65536) / 1024

/-- `[...str].reduce((acc, char) => acc + char.charCodeAt(0), 0)` from
`fakeDistance`. -/
def charCodeSum (s : String) : ℕ :=
  s.data.foldl (fun acc char => acc + charCodeAt0 char) 0

/-- `fakeDistance(from, to)`: concatenate, sum the `charCodeAt(0)` codes,
`Math.abs(...) % 3000 + 100`.  The sum is a nonnegative integer, so
`Math.abs` is the identity and the result is a natural number. -/
def fakeDistance (fromCity toCity : String) : ℕ :=
  charCodeSum (fromCity ++ toCity) % 3000 + 100

/-- `calculateJourneyLegs(distance, weight)`. -/
def calculateJourneyLegs (distance weight : ℚ) : List JourneyLeg :=
  if distance > 1500 then
    [ { mode := .Road, distance := 100, weight },
      { mode := .Sea, distance := distance - 200, weight },
      { mode := .Road, distance := 100, weight } ]
  else
    [ { mode := .Road, distance, weight } ]

/-- Rendering of a `TransportMode` as the string literal used in the source. -/
def TransportMode.render : TransportMode → String
  | .Road => "Road"
  | .Sea => "Sea"

/-- `getTransportModesString(legs)`: `legs.map(leg => leg.mode).join(' + ')`. -/
def getTransportModesString (legs : List JourneyLeg) : String :=
  String.intercalate " + " (legs.map (fun leg => leg.mode.render))

/-! ## Aggregator (`src/utils/dataAggregator.ts`) -/

/-- The body of the `csvData.map((row, index) => ...)` callback in
`processCsvData`, building one `Journey` from one validated row. -/
def mkJourney (index : ℕ) (row : TransportRow) : Journey :=
  let distance : ℚ := (fakeDistance row.origin row.destination : ℕ)
  let legs := calculateJourneyLegs distance row.weightKg
  let usesRoad := legs.any (fun leg => leg.mode == .Road)
  let usesSea := legs.any (fun leg => leg.mode == .Sea)
  { id := "journey-" ++ toString index
    route := { origin := row.origin, destination := row.destination,
               originCountry := row.originCountry,
               destinationCountry := row.destinationCountry }
    weight := row.weightKg
    distance := distance
    legs := legs
    totalRoadWeight := if usesRoad then row.weightKg else 0
    totalSeaWeight := if usesSea then row.weightKg else 0 }

/-- STEP 1 of `processCsvData`: `csvData.map((row, index) => ...)`. -/
def journeysOf (csvData : List TransportRow) : List Journey :=
  csvData.enum.map (fun p => mkJourney p.1 p.2)

/-- ``routeKey = `${journey.route.origin} → ${journey.route.destination}` ``. -/
def routeKeyOf (journey : Journey) : String :=
  journey.route.origin ++ " → " ++ journey.route.destination

/-- `routeMap.get(key)`: a JavaScript `Map` lookup, embedded as first-match
search in an insertion-ordered association list. -/
def mapGet (m : List (String × List Journey)) (key : String) : Option (List Journey) :=
  (m.find? (fun p => p.1 == key)).map (fun p => p.2)

/-- `routeMap.set(key, v)`: replaces the value at an existing key in place
(keeping its insertion position), or appends a fresh entry. -/
def mapSet (m : List (String × List Journey)) (key : String) (v : List Journey) :
    List (String × List Journey) :=
  if m.any (fun p => p.1 == key) then
    m.map (fun p => if p.1 == key then (key, v) else p)
  else
    m ++ [(key, v)]

/-- STEP 2 of `processCsvData`: the `journeys.forEach` loop filling `routeMap`
with `routeMap.set(routeKey, [...existing, journey])`. -/
def buildRouteMap (journeys : List Journey) : List (String × List Journey) :=
  journeys.foldl
    (fun m journey =>
      mapSet m (routeKeyOf journey) (((mapGet m (routeKeyOf journey)).getD []) ++ [journey]))
    []

/-- STEP 3 of `processCsvData`: the callback of
`Array.from(routeMap.entries()).map(([routeKey, journeys]) => ...)`. -/
def mkRouteGroup (entry : String × List Journey) : RouteGroup :=
  let routeKey := entry.1
  let journeys := entry.2
  let firstJourney := journeys.headD default
  let distance := firstJourney.distance
  let modes := getTransportModesString firstJourney.legs
  let totalWeight := journeys.foldl (fun sum j => sum + j.weight) 0
  let totalRoadWeight := journeys.foldl (fun sum j => sum + j.totalRoadWeight) 0
  let totalSeaWeight := journeys.foldl (fun sum j => sum + j.totalSeaWeight) 0
  { routeKey := routeKey
    route := { origin := firstJourney.route.origin,
               destination := firstJourney.route.destination }
    distance := distance
    timesTaken := journeys.length
    totalDistance := distance * (journeys.length : ℚ)
    modes := modes
    totalWeight := totalWeight
    totalRoadWeight := totalRoadWeight
    totalSeaWeight := totalSeaWeight
    journeys := journeys }

/-- The result object of `processCsvData`. -/
structure ProcessResult where
  journeys : List Journey
  routeGroups : List RouteGroup
deriving DecidableEq

/-- `processCsvData(csvData)`. -/
def processCsvData (csvData : List TransportRow) : ProcessResult :=
  let journeys := journeysOf csvData
  let routeGroups := (buildRouteMap journeys).map mkRouteGroup
  { journeys := journeys, routeGroups := routeGroups }

/-- `Math.round(x)`: floor of `x + 1/2` (JavaScript rounds half-way cases
toward positive infinity). -/
def mathRound (x : ℚ) : ℤ :=
  ⌊x + 1/2⌋

/-- `getGlobalWeightByMode(journeys)`. -/
def getGlobalWeightByMode (journeys : List Journey) : ChartData :=
  let totalRoadWeight := journeys.foldl (fun sum j => sum + j.totalRoadWeight) 0
  let totalSeaWeight := journeys.foldl (fun sum j => sum + j.totalSeaWeight) 0
  { road := mathRound totalRoadWeight, sea := mathRound totalSeaWeight }

/-! ## Spec-side comparison definitions -/

/-- Sum of the Unicode code points of a string's characters. -/
def codePointSum (s : String) : ℕ :=
  (s.data.map Char.toNat).sum

/-- Modelled from the spec: "concatenate origin then destination, sum the
numeric code points of every character in the concatenation, take the
absolute value modulo 3000, then add 100."  To be compared with
`fakeDistance`, which sums `charCodeAt(0)` values instead. -/
def specCodePointDistance (fromCity toCity : String) : ℕ :=
  codePointSum (fromCity ++ toCity) % 3000 + 100

/-! ## Characterization of the route-grouping fold -/

/-- The distinct route keys of a journey list, in first-seen order: the key
sequence produced by the `routeMap` insertion fold. -/
def insertKey (ks : List String) (k : String) : List String :=
  if k ∈ ks then ks else ks ++ [k]

/-- First-seen-ordered distinct keys of a journey list. -/
def seenKeys (journeys : List Journey) : List String :=
  journeys.foldl (fun ks j => insertKey ks (routeKeyOf j)) []

/-- The members of the group at key `k`: the journeys with that route key, in
input order. -/
def groupFor (journeys : List Journey) (k : String) : List Journey :=
  journeys.filter (fun j => routeKeyOf j == k)

/-! ## Validator embedding (`transportRowSchema.ts` and `csvParser.ts`) -/

/-- A JavaScript number: a finite double (embedded exactly as a rational) or
one of the special values `Infinity`, `-Infinity`, `NaN`. -/
inductive JsNum where
  | fin (q : ℚ)
  | inf
  | negInf
  | nan
deriving DecidableEq

/-- A loosely-typed JavaScript value as delivered to the schema by Papa Parse
(`header: true`, `dynamicTyping: true`): a string, a number, a boolean,
`null`, or `undefined` (which also stands for an absent field). -/
inductive JsValue where
  | str (s : String)
  | num (n : JsNum)
  | jsBool (b : Bool)
  | null
  | undef
deriving DecidableEq

deriving instance DecidableEq for Except

/-- `Math.abs` on a JavaScript number. -/
def jsAbs : JsNum → JsNum
  | .fin q => .fin |q|
  | .inf => .inf
  | .negInf => .inf
  | .nan => .nan

/-- Value of a run of decimal digits. -/
def digitsToNat (ds : List Char) : ℕ :=
  ds.foldl (fun acc c => 10 * acc + (c.toNat - 48)) 0

/-- Optionally signed digit run (used for the exponent of a float literal);
yields `0` when no digits follow, since `parseFloat` then ignores the
ill-formed exponent and keeps the mantissa parsed so far. -/
def parseSignedDigits (cs : List Char) : ℤ :=
  match cs with
  | '+' :: t =>
    if (t.takeWhile Char.isDigit).isEmpty then 0 else (digitsToNat (t.takeWhile Char.isDigit) : ℤ)
  | '-' :: t =>
    if (t.takeWhile Char.isDigit).isEmpty then 0 else -(digitsToNat (t.takeWhile Char.isDigit) : ℤ)
  | t =>
    if (t.takeWhile Char.isDigit).isEmpty then 0 else (digitsToNat (t.takeWhile Char.isDigit) : ℤ)

/-- The optional exponent part following the mantissa: `e` or `E`, an optional
sign, then digits. -/
def parseExpPart (cs : List Char) : ℤ :=
  match cs with
  | 'e' :: t => parseSignedDigits t
  | 'E' :: t => parseSignedDigits t
  | _ => 0

/-- The unsigned decimal literal accepted by `parseFloat`: digits, an optional
`.` plus fraction digits, and an optional exponent; `none` when there is no
digit at all (`parseFloat` then returns `NaN`).  The value is the exact
rational `digits * 10 ^ (exponent - #fractionDigits)` (abstracting from
IEEE-754 rounding), written as a single integer quotient. -/
def parseDecimal (cs : List Char) : Option ℚ :=
  let intDs := cs.takeWhile Char.isDigit
  let rest1 := cs.dropWhile Char.isDigit
  let fracDs := match rest1 with
    | '.' :: t => t.takeWhile Char.isDigit
    | _ => []
  let rest2 := match rest1 with
    | '.' :: t => t.dropWhile Char.isDigit
    | _ => rest1
  if intDs.isEmpty && fracDs.isEmpty then none
  else
    let exp : ℤ := parseExpPart rest2 - fracDs.length
    some (Rat.divInt (digitsToNat (intDs ++ fracDs) * 10 ^ exp.toNat) (10 ^ (-exp).toNat))

/-- The body of `parseFloat` after whitespace/sign handling: `Infinity` or a
decimal literal. -/
def parseFloatUnsigned (cs : List Char) (neg : Bool) : JsNum :=
  if cs.take 8 = "Infinity".data then (if neg then .negInf else .inf)
  else
    match parseDecimal cs with
    | some q => .fin (if neg then -q else q)
    | none => .nan

/-- JavaScript `parseFloat` on a string: skip leading whitespace, read an
optional sign, then `Infinity` or the longest valid decimal literal prefix;
`NaN` when nothing valid is found. -/
def parseFloat (s : String) : JsNum :=
  let cs := s.data.dropWhile
    (fun c => c == ' ' || c == '\t' || c == '\n' || c == '\r' || c == '\x0b' || c == '\x0c')
  match cs with
  | '+' :: t => parseFloatUnsigned t false
  | '-' :: t => parseFloatUnsigned t true
  | t => parseFloatUnsigned t false

/-- JavaScript `String.prototype.trim` (as invoked by Zod's `.trim()`
transform): strip whitespace characters from both ends of the string.
Implemented structurally (`dropWhile` on both ends) so that it is fully
computable. -/
def jsTrim (s : String) : String :=
  String.mk (((s.data.dropWhile Char.isWhitespace).reverse.dropWhile Char.isWhitespace).reverse)

/-- Zod's `getParsedType` names as used in `invalid_type` messages. -/
def typeName : JsValue → String
  | .str _ => "string"
  | .num .nan => "nan"
  | .num _ => "number"
  | .jsBool _ => "boolean"
  | .null => "null"
  | .undef => "undefined"

/-- One Zod issue, reduced to the failing field's key and its message. -/
structure ZodIssue where
  path : String
  message : String
deriving DecidableEq

/-- `z.string().trim().min(1, requiredMsg)`: a string input is trimmed and
must be non-empty afterwards; a missing value reports `Required` and a
non-string input an `invalid_type` message. -/
def zTrimmedNonEmpty (path requiredMsg : String) (v : JsValue) : Except ZodIssue String :=
  match v with
  | .str s => if 1 ≤ (jsTrim s).length then .ok (jsTrim s) else .error ⟨path, requiredMsg⟩
  | .undef => .error ⟨path, "Required"⟩
  | other => .error ⟨path, "Expected string, received " ++ typeName other⟩

/-- `z.string().trim().default('')`: an absent value defaults to the empty
string before any type check. -/
def zTrimmedDefault (path : String) (v : JsValue) : Except ZodIssue String :=
  match v with
  | .undef => .ok ""
  | .str s => .ok (jsTrim s)
  | other => .error ⟨path, "Expected string, received " ++ typeName other⟩

/-- The `data <= 0` comparison of Zod's exclusive `min(0)` (`positive`)
check, on a JavaScript number that already passed the type check. -/
def jsLeZero : JsNum → Bool
  | .fin q => decide (q ≤ 0)
  | .inf => false
  | .negInf => true
  | .nan => false

/-- `z.number().positive("Weight must be a positive number")`: rejects
non-numbers (with Zod's `invalid_type` message, where `NaN` has parsed type
`nan` and a missing value reports `Required`), then rejects `data <= 0`.
Note that `z.number()` does not require finiteness: `Infinity` passes. -/
def zPositiveNumber (path : String) (v : JsValue) : Except ZodIssue JsNum :=
  match v with
  | .num .nan => .error ⟨path, "Expected number, received nan"⟩
  | .num n =>
    if jsLeZero n then .error ⟨path, "Weight must be a positive number"⟩ else .ok n
  | .undef => .error ⟨path, "Required"⟩
  | other => .error ⟨path, "Expected number, received " ++ typeName other⟩

/-- The `z.preprocess` callback for `weightKg`:
`const num = parseFloat(String(val)); return isNaN(num) ? val : Math.abs(num)`.
For a number input, `parseFloat(String(n))` round-trips to `n` itself
(`String` on `Infinity`/`-Infinity`/`NaN` yields `"Infinity"`/`"-Infinity"`/
`"NaN"`, which `parseFloat` maps back; for finite doubles the shortest
round-tripping representation is produced and re-parsed exactly), for
`null`/`undefined`/booleans `String(...)` yields a non-numeric word, so the
original value is passed through. -/
def preprocessWeight (val : JsValue) : JsValue :=
  match val with
  | .num .nan => .num .nan
  | .num n => .num (jsAbs n)
  | .str s =>
    match parseFloat s with
    | .nan => .str s
    | n => .num (jsAbs n)
  | .null => .null
  | .undef => .undef
  | .jsBool b => .jsBool b

/-- The complete `weightKg` field pipeline of the schema:
`z.preprocess(..., z.number().positive("Weight must be a positive number"))`. -/
def zWeightField (v : JsValue) : Except ZodIssue JsNum :=
  zPositiveNumber "weightKg" (preprocessWeight v)

/-- One raw record as handed to `TransportRowSchema.safeParse`. -/
structure RawRow where
  origin : JsValue
  originCountry : JsValue
  destination : JsValue
  destinationCountry : JsValue
  weightKg : JsValue
deriving DecidableEq

/-- The schema's output row (`z.infer<typeof TransportRowSchema>`), with
`weightKg` being whatever number the schema accepted. -/
structure TransportRowOut where
  origin : String
  originCountry : String
  destination : String
  destinationCountry : String
  weightKg : JsNum
deriving DecidableEq

/-- The issue list contributed by one field result. -/
def collectIssue {α : Type} : Except ZodIssue α → List ZodIssue
  | .ok _ => []
  | .error e => [e]

/-- `TransportRowSchema.safeParse(row)`: every field is validated, and either
all succeed and the validated row is returned, or the issues of all failing
fields are reported together, in the schema's key order. -/
def safeParse (row : RawRow) : Except (List ZodIssue) TransportRowOut :=
  let ro := zTrimmedNonEmpty "origin" "Origin is required" row.origin
  let roc := zTrimmedDefault "originCountry" row.originCountry
  let rd := zTrimmedNonEmpty "destination" "Destination is required" row.destination
  let rdc := zTrimmedDefault "destinationCountry" row.destinationCountry
  let rw := zWeightField row.weightKg
  match ro, roc, rd, rdc, rw with
  | .ok o, .ok oc, .ok d, .ok dc, .ok w =>
    .ok { origin := o, originCountry := oc, destination := d,
          destinationCountry := dc, weightKg := w }
  | _, _, _, _, _ =>
    .error (collectIssue ro ++ collectIssue roc ++ collectIssue rd ++
      collectIssue rdc ++ collectIssue rw)

/-- `ValidationError`: 1-based row index plus that row's field issues. -/
structure ValidationError where
  rowIndex : ℕ
  errors : List ZodIssue
deriving DecidableEq

/-- `CsvParseResult`. -/
structure CsvParseResult where
  validRows : List TransportRowOut
  errors : List ValidationError
deriving DecidableEq

/-- The `result.data.forEach((row, index) => ...)` validation loop in the
`complete` callback of `parseCsvFile`: each row is `safeParse`d
independently; successes are pushed onto `validRows` and failures onto
`errors` with the 1-based row index. -/
def parseCsvRows (data : List RawRow) : CsvParseResult :=
  data.enum.foldl
    (fun acc p =>
      match safeParse p.2 with
      | .ok v => { acc with validRows := acc.validRows ++ [v] }
      | .error issues =>
        { acc with errors := acc.errors ++ [{ rowIndex := p.1 + 1, errors := issues }] })
    { validRows := [], errors := [] }

/-! ## Concrete sample data used by the witnesses -/

/-- A validated row whose route has pseudo-distance 1203 (single Road leg). -/
def rowLD : TransportRow :=
  { origin := "London", originCountry := "", destination := "Dubai",
    destinationCountry := "", weightKg := 500 }

/-- A second row on the same route with a different weight. -/
def rowLD2 : TransportRow :=
  { origin := "London", originCountry := "", destination := "Dubai",
    destinationCountry := "", weightKg := 200 }

/-- A row whose route has pseudo-distance 1900 (Road + Sea + Road legs). -/
def rowZZ : TransportRow :=
  { origin := "ZZZZZZZZZZ", originCountry := "", destination := "ZZZZZZZZZZ",
    destinationCountry := "", weightKg := 500 }

/-- First half of a colliding route-key pair: `("A → B", "C")`. -/
def rowColl1 : TransportRow :=
  { origin := "A → B", originCountry := "", destination := "C",
    destinationCountry := "", weightKg := 1 }

/-- Second half of a colliding route-key pair: `("A", "B → C")` — a different
ordered pair with the same `routeKey` string `"A → B → C"`. -/
def rowColl2 : TransportRow :=
  { origin := "A", originCountry := "", destination := "B → C",
    destinationCountry := "", weightKg := 1 }

/-- The single route group produced by `[rowLD, rowLD2]`. -/
def gLD2 : RouteGroup :=
  mkRouteGroup ("London → Dubai", [mkJourney 0 rowLD, mkJourney 1 rowLD2])

/-! ## Generic helper lemmas -/

theorem foldl_add_eq_sum {α M : Type _} [AddCommMonoid M] (f : α → M) :
    ∀ (l : List α) (n : M), l.foldl (fun acc x => acc + f x) n = n + (l.map f).sum
  | [], n => by simp
  | x :: l, n => by
    rw [List.foldl_cons, foldl_add_eq_sum f l (n + f x)]
    simp [add_assoc]

theorem charCodeSum_eq (s : String) : charCodeSum s = (s.data.map charCodeAt0).sum := by
  rw [charCodeSum, foldl_add_eq_sum charCodeAt0 s.data 0, zero_add]

theorem charCodeSum_append (s t : String) :
    charCodeSum (s ++ t) = charCodeSum s + charCodeSum t := by
  simp [charCodeSum_eq, String.data_append]

/-! ## Claim theorems for the leg calculator -/

/-- **C2.** For every distance `d` and weight `w`: if `d ≤ 1500` the leg list
is the single leg `{Road, d, w}`; if `d > 1500` it is exactly
`[{Road, 100, w}, {Sea, d - 200, w}, {Road, 100, w}]` in that order (strict
threshold, sea distance `d - 200` with no flooring or clamping). -/
theorem calculateJourneyLegs_branches (d w : ℚ) :
    (d ≤ 1500 → calculateJourneyLegs d w = [⟨.Road, d, w⟩]) ∧
    (1500 < d → calculateJourneyLegs d w =
      [⟨.Road, 100, w⟩, ⟨.Sea, d - 200, w⟩, ⟨.Road, 100, w⟩]) := by
  constructor
  · intro h
    rw [calculateJourneyLegs, if_neg (by exact not_lt.mpr h)]
  · intro h
    rw [calculateJourneyLegs, if_pos h]

/-- Witness for C2: the boundary inputs `d = 1500` and `d = 1501`. -/
theorem calculateJourneyLegs_branches_witness :
    calculateJourneyLegs 1500 7 = [⟨.Road, 1500, 7⟩] ∧
    calculateJourneyLegs 1501 7 = [⟨.Road, 100, 7⟩, ⟨.Sea, 1301, 7⟩, ⟨.Road, 100, 7⟩] := by
  refine ⟨(calculateJourneyLegs_branches 1500 7).1 (by norm_num), ?_⟩
  have h := (calculateJourneyLegs_branches 1501 7).2 (by norm_num)
  norm_num at h
  exact h

/-- **C3, counterexample.** The claim's "sum of code points" formula disagrees
with the code on an astral character: for origin `"😀"` (U+1F600) the code
sums the leading UTF-16 surrogate (55357), not the code point (128512), so
the distances differ (1457 vs 2612). -/
theorem fakeDistance_codepoint_counterexample :
    fakeDistance (String.mk [Char.ofNat 128512]) "" = 1457 ∧
    specCodePointDistance (String.mk [Char.ofNat 128512]) "" = 2612 ∧
    fakeDistance (String.mk [Char.ofNat 128512]) "" ≠
      specCodePointDistance (String.mk [Char.ofNat 128512]) "" := by
  refine ⟨by decide, by decide, by decide⟩

/-- **C3, amended.** `fakeDistance` is a pure deterministic function of the two
strings (identical calls yield identical results), and equals the absolute
value of the sum of the *leading UTF-16 code units* of the characters of
`origin ++ destination`, modulo 3000, plus 100; when every character of the
concatenation lies in the Basic Multilingual Plane this coincides with the
spec's code-point formula. -/
theorem fakeDistance_deterministic_and_formula (s t : String) :
    fakeDistance s t = fakeDistance s t ∧
    fakeDistance s t = ((s ++ t).data.map charCodeAt0).sum % 3000 + 100 ∧
    ((∀ c ∈ (s ++ t).data, c.toNat < 65536) →
      fakeDistance s t = specCodePointDistance s t) := by
  refine ⟨rfl, by rw [fakeDistance, charCodeSum_eq], ?_⟩
  intro hbmp
  rw [fakeDistance, specCodePointDistance, charCodeSum_eq, codePointSum]
  have hmap : List.map charCodeAt0 (s ++ t).data = List.map Char.toNat (s ++ t).data :=
    List.map_congr_left fun c hc => by rw [charCodeAt0, if_pos (hbmp c hc)]
  rw [hmap]

/-- Witness for C3 (amended): a concrete all-BMP input where the code's
UTF-16 formula agrees with the spec's code-point formula. -/
theorem fakeDistance_deterministic_and_formula_witness :
    fakeDistance "London" "Dubai" = specCodePointDistance "London" "Dubai" :=
  (fakeDistance_deterministic_and_formula "London" "Dubai").2.2 (by decide)

theorem seenKeys_concat (js : List Journey) (j : Journey) :
    seenKeys (js ++ [j]) = insertKey (seenKeys js) (routeKeyOf j) := by
  rw [seenKeys, List.foldl_append, List.foldl_cons, List.foldl_nil, seenKeys]

theorem mem_insertKey {a k : String} {ks : List String} :
    a ∈ insertKey ks k ↔ a ∈ ks ∨ a = k := by
  rw [insertKey]
  split
  · rename_i h
    exact ⟨Or.inl, fun h2 => h2.elim id (fun e => e ▸ h)⟩
  · simp

theorem mem_seenKeys {k : String} (js : List Journey) :
    k ∈ seenKeys js ↔ ∃ j ∈ js, routeKeyOf j = k := by
  induction js using List.reverseRecOn with
  | nil => simp [seenKeys]
  | append_singleton js j ih =>
    rw [seenKeys_concat, mem_insertKey, ih]
    constructor
    · rintro (⟨j2, hj2, hk⟩ | hk)
      · exact ⟨j2, by simp [hj2], hk⟩
      · exact ⟨j, by simp, hk.symm⟩
    · rintro ⟨j2, hj2, hk⟩
      rcases List.mem_append.mp hj2 with h | h
      · exact Or.inl ⟨j2, h, hk⟩
      · rw [List.mem_singleton.mp h] at hk
        exact Or.inr hk.symm

theorem nodup_seenKeys (js : List Journey) : (seenKeys js).Nodup := by
  induction js using List.reverseRecOn with
  | nil => simp [seenKeys]
  | append_singleton js j ih =>
    rw [seenKeys_concat, insertKey]
    split
    · exact ih
    · rename_i h
      simp [List.nodup_append, ih, h]

theorem find?_keyed_map (ks : List String) (f : String → List Journey) (k0 : String) :
    (ks.map (fun k => (k, f k))).find? (fun p => p.1 == k0) =
      if k0 ∈ ks then some (k0, f k0) else none := by
  induction ks with
  | nil => simp
  | cons a ks ih =>
    by_cases h : a = k0
    · subst h
      simp [List.find?_cons_of_pos]
    · rw [List.map_cons, List.find?_cons_of_neg _ (by simp [h]), ih]
      simp [List.mem_cons, h, Ne.symm h]

theorem any_keyed_map (ks : List String) (f : String → List Journey) (k0 : String) :
    ((ks.map (fun k => (k, f k))).any (fun p => p.1 == k0)) = true ↔ k0 ∈ ks := by
  simp [List.any_map, Function.comp]

theorem mapSet_keyed_map_mem {ks : List String} {k0 : String}
    (f : String → List Journey) (v : List Journey) (h : k0 ∈ ks) :
    mapSet (ks.map (fun k => (k, f k))) k0 v =
      ks.map (fun k => (k, if k = k0 then v else f k)) := by
  rw [mapSet, if_pos ((any_keyed_map ks f k0).mpr h), List.map_map]
  apply List.map_congr_left
  intro k _
  by_cases hk : k = k0 <;> simp [Function.comp, hk]

theorem mapSet_keyed_map_not_mem {ks : List String} {k0 : String}
    (f : String → List Journey) (v : List Journey) (h : k0 ∉ ks) :
    mapSet (ks.map (fun k => (k, f k))) k0 v =
      ks.map (fun k => (k, f k)) ++ [(k0, v)] := by
  rw [mapSet, if_neg]
  intro hany
  exact h ((any_keyed_map ks f k0).mp hany)

theorem mapGet_keyed_map (ks : List String) (f : String → List Journey) (k0 : String) :
    mapGet (ks.map (fun k => (k, f k))) k0 = if k0 ∈ ks then some (f k0) else none := by
  rw [mapGet, find?_keyed_map]
  split <;> rfl

theorem groupFor_concat (js : List Journey) (j : Journey) (k : String) :
    groupFor (js ++ [j]) k =
      groupFor js k ++ (if routeKeyOf j = k then [j] else []) := by
  rw [groupFor, groupFor, List.filter_append]
  congr 1
  by_cases h : routeKeyOf j = k <;> simp [h]

theorem groupFor_eq_nil_of_not_seen {js : List Journey} {k : String}
    (h : k ∉ seenKeys js) : groupFor js k = [] := by
  rw [groupFor, List.filter_eq_nil_iff]
  intro j hj hk
  exact h ((mem_seenKeys js).mpr ⟨j, hj, by simpa using hk⟩)

/-- The `routeMap` fold groups journeys by route key: the resulting
association list has exactly the distinct keys in first-seen order, each
paired with the journeys carrying that key in input order. -/
theorem buildRouteMap_eq (js : List Journey) :
    buildRouteMap js = (seenKeys js).map (fun k => (k, groupFor js k)) := by
  induction js using List.reverseRecOn with
  | nil => rfl
  | append_singleton js j ih =>
    rw [buildRouteMap, List.foldl_append, List.foldl_cons, List.foldl_nil, ← buildRouteMap, ih,
      seenKeys_concat, insertKey]
    by_cases h : routeKeyOf j ∈ seenKeys js
    · rw [if_pos h, mapGet_keyed_map, if_pos h, Option.getD_some,
        mapSet_keyed_map_mem _ _ h]
      apply List.map_congr_left
      intro k hk
      rw [groupFor_concat]
      by_cases hkk : k = routeKeyOf j
      · subst hkk
        simp
      · have hkk2 : routeKeyOf j ≠ k := Ne.symm hkk
        simp [hkk, hkk2]
    · rw [if_neg h, mapGet_keyed_map, if_neg h, Option.getD_none,
        mapSet_keyed_map_not_mem _ _ h, List.map_append]
      congr 1
      · apply List.map_congr_left
        intro k hk
        rw [groupFor_concat]
        have hkk : routeKeyOf j ≠ k := fun e => h (e ▸ hk)
        simp [hkk]
      · rw [List.map_singleton, groupFor_concat, groupFor_eq_nil_of_not_seen h]
        simp

/-! ## Claim theorem for `getGlobalWeightByMode` -/

/-- **C9.** `getGlobalWeightByMode` returns the sums of the journeys'
`totalRoadWeight` and `totalSeaWeight` fields, each rounded independently
with `Math.round`, and returns `{road: 0, sea: 0}` on the empty sequence. -/
theorem getGlobalWeightByMode_sums (journeys : List Journey) :
    getGlobalWeightByMode journeys =
      { road := mathRound ((journeys.map Journey.totalRoadWeight).sum),
        sea := mathRound ((journeys.map Journey.totalSeaWeight).sum) } ∧
    getGlobalWeightByMode [] = { road := 0, sea := 0 } := by
  constructor
  · rw [getGlobalWeightByMode]
    simp only [foldl_add_eq_sum, zero_add]
  · simp [getGlobalWeightByMode, mathRound]
    norm_num

/-! ## Structural facts about journeys and groups -/

theorem journeys_processCsvData (rows : List TransportRow) :
    (processCsvData rows).journeys = journeysOf rows := rfl

theorem routeGroups_processCsvData (rows : List TransportRow) :
    (processCsvData rows).routeGroups = (buildRouteMap (journeysOf rows)).map mkRouteGroup := rfl

theorem journey_shape {rows : List TransportRow} {j : Journey} (h : j ∈ journeysOf rows) :
    j.distance = ((fakeDistance j.route.origin j.route.destination : ℕ) : ℚ) ∧
    j.legs = calculateJourneyLegs j.distance j.weight := by
  rw [journeysOf, List.mem_map] at h
  obtain ⟨p, -, rfl⟩ := h
  exact ⟨rfl, rfl⟩

theorem fakeDistance_eq_of_key {o1 d1 o2 d2 : String}
    (h : o1 ++ " → " ++ d1 = o2 ++ " → " ++ d2) :
    fakeDistance o1 d1 = fakeDistance o2 d2 := by
  have h1 : charCodeSum (o1 ++ " → " ++ d1) = charCodeSum (o2 ++ " → " ++ d2) := by rw [h]
  simp only [charCodeSum_append] at h1
  rw [fakeDistance, fakeDistance]
  simp only [charCodeSum_append]
  omega

theorem modes_of_calcLegs (d w : ℚ) :
    getTransportModesString (calculateJourneyLegs d w) =
      if d > 1500 then "Road + Sea + Road" else "Road" := by
  rw [calculateJourneyLegs]
  split <;> rfl

theorem usesRoad_always (d w : ℚ) :
    (calculateJourneyLegs d w).any (fun leg => leg.mode == TransportMode.Road) = true := by
  rw [calculateJourneyLegs]
  split <;> rfl

theorem usesSea_iff (d w : ℚ) :
    (calculateJourneyLegs d w).any (fun leg => leg.mode == TransportMode.Sea) = true ↔
      d > 1500 := by
  rw [calculateJourneyLegs]
  split
  · rename_i h
    simpa using h
  · rename_i h
    simpa using h

theorem legs_length_three_iff (d w : ℚ) :
    (calculateJourneyLegs d w).length = 3 ↔ d > 1500 := by
  rw [calculateJourneyLegs]
  split
  · rename_i h
    simpa using h
  · rename_i h
    simpa using h

/-! ## Claim theorems for the grouping step -/

/-- **C5, amended.** Aggregation produces exactly one `RouteGroup` per
distinct `routeKey` *string* ``origin ++ " → " ++ destination`` occurring
among the run's journeys — two journeys land in the same group if and only if
their `routeKey` strings are equal (equal ordered pairs give equal keys, but
two distinct ordered pairs whose fields contain the `" → "` separator can
collide) — with groups listed in first-seen key order and each group's
members kept in input order. -/
theorem routeGroups_partition (rows : List TransportRow) :
    (processCsvData rows).routeGroups.map RouteGroup.routeKey =
      seenKeys (processCsvData rows).journeys ∧
    (seenKeys (processCsvData rows).journeys).Nodup ∧
    (∀ k : String, k ∈ seenKeys (processCsvData rows).journeys ↔
      ∃ j ∈ (processCsvData rows).journeys, routeKeyOf j = k) ∧
    (∀ g ∈ (processCsvData rows).routeGroups,
      g.journeys =
        (processCsvData rows).journeys.filter (fun j => routeKeyOf j == g.routeKey)) := by
  refine ⟨?_, nodup_seenKeys _, fun k => mem_seenKeys _, ?_⟩
  · rw [routeGroups_processCsvData, journeys_processCsvData, buildRouteMap_eq, List.map_map,
      List.map_map]
    exact (List.map_congr_left (fun k _ => rfl)).trans (List.map_id _)
  · intro g hg
    rw [routeGroups_processCsvData, buildRouteMap_eq, List.map_map] at hg
    obtain ⟨k, -, rfl⟩ := List.mem_map.mp hg
    rw [journeys_processCsvData]
    rfl

/-- Witness for C5 (amended), instantiating the member-characterization
conjunct at a concrete group of a concrete run. -/
theorem routeGroups_partition_witness :
    gLD2.journeys =
      (processCsvData [rowLD, rowLD2]).journeys.filter
        (fun j => routeKeyOf j == gLD2.routeKey) := by
  have hmem : gLD2 ∈ (processCsvData [rowLD, rowLD2]).routeGroups := by
    rw [show (processCsvData [rowLD, rowLD2]).routeGroups = [gLD2] from rfl]
    exact List.mem_singleton.mpr rfl
  exact (routeGroups_partition [rowLD, rowLD2]).2.2.2 gLD2 hmem

/-- **C5, counterexample.** Grouping is *not* by the ordered pair (origin,
destination): the rows `("A → B", "C")` and `("A", "B → C")` have different
ordered pairs but identical `routeKey` strings, so they land in one single
group. -/
theorem routeGroups_pair_counterexample :
    (processCsvData [rowColl1, rowColl2]).routeGroups.map RouteGroup.journeys =
      [[mkJourney 0 rowColl1, mkJourney 1 rowColl2]] ∧
    (rowColl1.origin, rowColl1.destination) ≠ (rowColl2.origin, rowColl2.destination) := by
  constructor
  · rfl
  · decide

/-- **C4.** Every `RouteGroup` of a run satisfies: `timesTaken` is the number
of member journeys, `totalDistance = distance * timesTaken`, `totalWeight`
is the sum of the members' `weight`, `totalRoadWeight` and `totalSeaWeight`
are the sums of the members' corresponding fields, and `distance`, `modes`
and `route` are taken from the group's first member. -/
theorem routeGroup_aggregates (rows : List TransportRow) :
    ∀ g ∈ (processCsvData rows).routeGroups,
      g.timesTaken = g.journeys.length ∧
      g.totalDistance = g.distance * (g.timesTaken : ℚ) ∧
      g.totalWeight = (g.journeys.map Journey.weight).sum ∧
      g.totalRoadWeight = (g.journeys.map Journey.totalRoadWeight).sum ∧
      g.totalSeaWeight = (g.journeys.map Journey.totalSeaWeight).sum ∧
      g.distance = (g.journeys.headD default).distance ∧
      g.modes = getTransportModesString (g.journeys.headD default).legs ∧
      g.route = { origin := (g.journeys.headD default).route.origin,
                  destination := (g.journeys.headD default).route.destination } := by
  intro g hg
  rw [routeGroups_processCsvData] at hg
  obtain ⟨entry, -, rfl⟩ := List.mem_map.mp hg
  refine ⟨rfl, rfl, ?_, ?_, ?_, rfl, rfl, rfl⟩ <;>
    exact (foldl_add_eq_sum _ entry.2 0).trans (zero_add _)

/-- Witness for C4 at a concrete two-member group. -/
theorem routeGroup_aggregates_witness :
    gLD2.timesTaken = gLD2.journeys.length ∧
    gLD2.totalWeight = (gLD2.journeys.map Journey.weight).sum := by
  have hmem : gLD2 ∈ (processCsvData [rowLD, rowLD2]).routeGroups := by
    rw [show (processCsvData [rowLD, rowLD2]).routeGroups = [gLD2] from rfl]
    exact List.mem_singleton.mpr rfl
  have h := routeGroup_aggregates [rowLD, rowLD2] gLD2 hmem
  exact ⟨h.1, h.2.2.1⟩

/-- **C8.** Within a run's `RouteGroup`, every member journey has the group's
`distance`, and every member's leg-mode display string equals the group's
`modes` — deriving both from the first member loses no information.  (This
holds even for colliding keys: equal `routeKey` strings force equal character
multisets of `origin ++ destination`, hence equal `fakeDistance` values.) -/
theorem routeGroup_members_uniform (rows : List TransportRow) :
    ∀ g ∈ (processCsvData rows).routeGroups, ∀ j ∈ g.journeys,
      j.distance = g.distance ∧ getTransportModesString j.legs = g.modes := by
  intro g hg j hj
  rw [routeGroups_processCsvData, buildRouteMap_eq, List.map_map] at hg
  obtain ⟨k, hk, rfl⟩ := List.mem_map.mp hg
  have hj2 : j ∈ groupFor (journeysOf rows) k := hj
  rw [groupFor, List.mem_filter] at hj2
  obtain ⟨hjs, hjk⟩ := hj2
  have hjk2 : routeKeyOf j = k := by simpa using hjk
  have hne : groupFor (journeysOf rows) k ≠ [] := by
    obtain ⟨j0, hj0, hk0⟩ := (mem_seenKeys (journeysOf rows)).mp hk
    intro he
    rw [groupFor, List.filter_eq_nil_iff] at he
    exact he j0 hj0 (by simpa using hk0)
  obtain ⟨h0, t, hht⟩ := List.exists_cons_of_ne_nil hne
  have hhead : (groupFor (journeysOf rows) k).headD default = h0 := by rw [hht]; rfl
  have hh0mem : h0 ∈ groupFor (journeysOf rows) k := by rw [hht]; simp
  rw [groupFor, List.mem_filter] at hh0mem
  obtain ⟨hh0js, hh0k⟩ := hh0mem
  have hh0k2 : routeKeyOf h0 = k := by simpa using hh0k
  obtain ⟨hjd, hjl⟩ := journey_shape hjs
  obtain ⟨h0d, h0l⟩ := journey_shape hh0js
  have hdist : fakeDistance j.route.origin j.route.destination =
      fakeDistance h0.route.origin h0.route.destination :=
    fakeDistance_eq_of_key (hjk2.trans hh0k2.symm)
  have hdd : j.distance = h0.distance := by
    rw [hjd, h0d, hdist]
  constructor
  · show j.distance = ((groupFor (journeysOf rows) k).headD default).distance
    rw [hhead, hdd]
  · show getTransportModesString j.legs =
      getTransportModesString (((groupFor (journeysOf rows) k).headD default).legs)
    rw [hhead, hjl, h0l, hdd, modes_of_calcLegs, modes_of_calcLegs]

/-- Witness for C8: the second member of a concrete two-member group shares
the group's distance and modes string. -/
theorem routeGroup_members_uniform_witness :
    (mkJourney 1 rowLD2).distance = gLD2.distance ∧
    getTransportModesString (mkJourney 1 rowLD2).legs = gLD2.modes := by
  have hmem : gLD2 ∈ (processCsvData [rowLD, rowLD2]).routeGroups := by
    rw [show (processCsvData [rowLD, rowLD2]).routeGroups = [gLD2] from rfl]
    exact List.mem_singleton.mpr rfl
  exact routeGroup_members_uniform [rowLD, rowLD2] gLD2 hmem (mkJourney 1 rowLD2)
    (by rw [show gLD2.journeys = [mkJourney 0 rowLD, mkJourney 1 rowLD2] from rfl]; simp)

/-! ## Claim theorems for per-journey weight attribution -/

/-- **C1.** Every journey of a run comes from the row at its index, and its
`totalRoadWeight` is the row's `weightKg` exactly when some leg has mode
Road (else `0`), likewise `totalSeaWeight` for Sea; in particular a
three-leg journey (Road + Sea + Road) with weight `w` contributes exactly
`w` to Road (not `2w`) and exactly `w` to Sea. -/
theorem journey_weight_attribution (rows : List TransportRow) :
    ∀ j ∈ (processCsvData rows).journeys,
      (∃ i, ∃ h : i < rows.length,
        j = mkJourney i (rows.get ⟨i, h⟩) ∧ j.weight = (rows.get ⟨i, h⟩).weightKg) ∧
      j.totalRoadWeight =
        (if j.legs.any (fun leg => leg.mode == TransportMode.Road) then j.weight else 0) ∧
      j.totalSeaWeight =
        (if j.legs.any (fun leg => leg.mode == TransportMode.Sea) then j.weight else 0) ∧
      (j.legs.length = 3 → j.totalRoadWeight = j.weight ∧ j.totalSeaWeight = j.weight) := by
  intro j hj
  rw [journeys_processCsvData, journeysOf, List.mem_map] at hj
  obtain ⟨p, hp, rfl⟩ := hj
  rw [List.mem_enum_iff_get?] at hp
  obtain ⟨h, hget⟩ := List.get?_eq_some.mp hp
  refine ⟨⟨p.1, h, by rw [hget], by rw [hget]; rfl⟩, rfl, rfl, ?_⟩
  intro h3
  have hd := (legs_length_three_iff ((fakeDistance p.2.origin p.2.destination : ℕ) : ℚ)
    p.2.weightKg).mp h3
  constructor
  · show (if (calculateJourneyLegs _ _).any (fun leg => leg.mode == TransportMode.Road)
      then p.2.weightKg else 0) = p.2.weightKg
    rw [usesRoad_always]
    rfl
  · show (if (calculateJourneyLegs _ _).any (fun leg => leg.mode == TransportMode.Sea)
      then p.2.weightKg else 0) = p.2.weightKg
    rw [(usesSea_iff _ _).mpr hd]
    rfl

/-- Witness for C1: the three-leg journey of `rowZZ` (distance 1900) carries
its full weight once on Road and once on Sea. -/
theorem journey_weight_attribution_witness :
    (mkJourney 0 rowZZ).totalRoadWeight = (mkJourney 0 rowZZ).weight ∧
    (mkJourney 0 rowZZ).totalSeaWeight = (mkJourney 0 rowZZ).weight := by
  have hmem : mkJourney 0 rowZZ ∈ (processCsvData [rowZZ]).journeys := by
    rw [show (processCsvData [rowZZ]).journeys = [mkJourney 0 rowZZ] from rfl]
    exact List.mem_singleton.mpr rfl
  exact (journey_weight_attribution [rowZZ] (mkJourney 0 rowZZ) hmem).2.2.2 rfl

/-- **C10.** The leg list is never empty and always starts with a Road leg
(both branches do); consequently every journey of a run uses Road, so its
`totalRoadWeight` equals its `weight`, which is nonzero whenever the weight
is positive — only `totalSeaWeight` can be `0`. -/
theorem legs_nonempty_first_road :
    (∀ d w : ℚ, ∃ leg rest, calculateJourneyLegs d w = leg :: rest ∧
      leg.mode = TransportMode.Road) ∧
    (∀ rows : List TransportRow, ∀ j ∈ (processCsvData rows).journeys,
      j.totalRoadWeight = j.weight ∧ (0 < j.weight → j.totalRoadWeight ≠ 0)) := by
  constructor
  · intro d w
    rw [calculateJourneyLegs]
    split
    · exact ⟨_, _, rfl, rfl⟩
    · exact ⟨_, _, rfl, rfl⟩
  · intro rows j hj
    rw [journeys_processCsvData, journeysOf, List.mem_map] at hj
    obtain ⟨p, -, rfl⟩ := hj
    have hroad : (mkJourney p.1 p.2).totalRoadWeight = p.2.weightKg := by
      show (if (calculateJourneyLegs _ _).any (fun leg => leg.mode == TransportMode.Road)
        then p.2.weightKg else 0) = p.2.weightKg
      rw [usesRoad_always]
      rfl
    exact ⟨hroad, fun hw => by rw [hroad]; exact ne_of_gt hw⟩

/-- Witness for C10: a concrete nonempty leg list and a concrete journey with
nonzero road weight. -/
theorem legs_nonempty_first_road_witness :
    calculateJourneyLegs 42 7 ≠ [] ∧ (mkJourney 0 rowLD).totalRoadWeight ≠ 0 := by
  obtain ⟨leg, rest, he, -⟩ := legs_nonempty_first_road.1 42 7
  refine ⟨by rw [he]; exact List.cons_ne_nil _ _, ?_⟩
  have hmem : mkJourney 0 rowLD ∈ (processCsvData [rowLD]).journeys := by
    rw [show (processCsvData [rowLD]).journeys = [mkJourney 0 rowLD] from rfl]
    exact List.mem_singleton.mpr rfl
  exact (legs_nonempty_first_road.2 [rowLD] (mkJourney 0 rowLD) hmem).2
    (show (0 : ℚ) < 500 by norm_num)

/-! ## Claim theorems for the validator -/

theorem parseCsvRows_aux (data : List RawRow) : ∀ (n : ℕ) (acc : CsvParseResult),
    (data.enumFrom n).foldl
      (fun acc p =>
        match safeParse p.2 with
        | .ok v => { acc with validRows := acc.validRows ++ [v] }
        | .error issues =>
          { acc with errors := acc.errors ++ [{ rowIndex := p.1 + 1, errors := issues }] })
      acc =
    { validRows := acc.validRows ++ data.filterMap (fun r => (safeParse r).toOption),
      errors := acc.errors ++ (data.enumFrom n).filterMap
        (fun p => match safeParse p.2 with
          | .ok _ => none
          | .error issues => some { rowIndex := p.1 + 1, errors := issues }) } := by
  induction data with
  | nil => intro n acc; simp
  | cons r rs ih =>
    intro n acc
    rw [List.enumFrom_cons, List.foldl_cons]
    cases hs : safeParse r with
    | ok v =>
      simp only [hs, ih, List.filterMap_cons, Except.toOption, List.append_assoc,
        List.singleton_append]
    | error issues =>
      simp only [hs, ih, List.filterMap_cons, Except.toOption, List.append_assoc,
        List.singleton_append]

theorem length_aux (data : List RawRow) : ∀ n : ℕ,
    (data.filterMap (fun r => (safeParse r).toOption)).length +
      ((data.enumFrom n).filterMap
        (fun p => match safeParse p.2 with
          | .ok _ => none
          | .error issues => some ({ rowIndex := p.1 + 1, errors := issues } : ValidationError))).length =
      data.length := by
  induction data with
  | nil => intro n; simp
  | cons r rs ih =>
    intro n
    rw [List.enumFrom_cons]
    have hih := ih (n + 1)
    simp only [Except.toOption] at hih
    cases hs : safeParse r with
    | ok v =>
      simp only [List.filterMap_cons, hs, Except.toOption, List.length_cons]
      omega
    | error issues =>
      simp only [List.filterMap_cons, hs, Except.toOption, List.length_cons]
      omega

/-- **C6.** Validation is per-row and independent, with partial-success
semantics: `validRows` consists exactly of the rows `safeParse` accepts (in
order), `errors` has exactly one entry per rejected row carrying the 1-based
row index and that row's issues, every record lands in exactly one of the
two lists, and a row failing on several fields reports all of them in one
entry (here: empty origin, blank destination and non-numeric weight). -/
theorem parseCsvRows_partial_success (data : List RawRow) :
    (parseCsvRows data).validRows = data.filterMap (fun r => (safeParse r).toOption) ∧
    (parseCsvRows data).errors = data.enum.filterMap
      (fun p => match safeParse p.2 with
        | .ok _ => none
        | .error issues => some { rowIndex := p.1 + 1, errors := issues }) ∧
    (parseCsvRows data).validRows.length + (parseCsvRows data).errors.length = data.length ∧
    safeParse { origin := .str "", originCountry := .undef, destination := .str "   ",
                destinationCountry := .undef, weightKg := .str "invalid weight" } =
      .error [⟨"origin", "Origin is required"⟩, ⟨"destination", "Destination is required"⟩,
              ⟨"weightKg", "Expected number, received string"⟩] := by
  have h := parseCsvRows_aux data 0 { validRows := [], errors := [] }
  rw [show parseCsvRows data = (data.enumFrom 0).foldl _ { validRows := [], errors := [] }
    from rfl, h]
  refine ⟨by simp, by simp [List.enum], ?_, ?_⟩
  · simp only [List.nil_append]
    exact length_aux data 0
  · decide

/-- **C7, counterexample.** The claim says a coerced non-finite weight fails
validation; but `"Infinity"` coerces to the non-finite `Infinity`, which
`z.number().positive(...)` accepts, so the row does *not* fail. -/
theorem weight_nonfinite_counterexample :
    preprocessWeight (JsValue.str "Infinity") = JsValue.num JsNum.inf ∧
    zWeightField (JsValue.str "Infinity") = .ok JsNum.inf :=
  ⟨rfl, rfl⟩

/-- **C7, amended.** Weight validation normalizes by absolute value: any raw
input coercing to a finite nonzero number validates to its absolute value
(numbers directly, numeric strings — including `"-500"` — via `parseFloat`);
a coerced value of exactly `0` fails with the positive-number message, and a
non-numeric string, `null` or `undefined` fails with the corresponding
`InvalidWeight`-kind message.  However, non-finite coerced values are *not*
rejected: `"Infinity"` validates to `Infinity`. -/
theorem weight_validation_normalizes :
    (∀ q : ℚ, q ≠ 0 → zWeightField (.num (.fin q)) = .ok (.fin |q|)) ∧
    (∀ (s : String) (q : ℚ), parseFloat s = .fin q → q ≠ 0 →
      zWeightField (.str s) = .ok (.fin |q|)) ∧
    zWeightField (.num (.fin 0)) = .error ⟨"weightKg", "Weight must be a positive number"⟩ ∧
    (∀ s : String, parseFloat s = .nan →
      zWeightField (.str s) = .error ⟨"weightKg", "Expected number, received string"⟩) ∧
    zWeightField .null = .error ⟨"weightKg", "Expected number, received null"⟩ ∧
    zWeightField .undef = .error ⟨"weightKg", "Required"⟩ ∧
    zWeightField (.str "Infinity") = .ok .inf := by
  refine ⟨?_, ?_, rfl, ?_, rfl, rfl, rfl⟩
  · intro q hq
    show zPositiveNumber "weightKg" (.num (.fin |q|)) = .ok (.fin |q|)
    simp [zPositiveNumber, jsLeZero, abs_nonpos_iff, hq]
  · intro s q hs hq
    have h1 : preprocessWeight (.str s) = .num (.fin |q|) := by
      simp [preprocessWeight, hs, jsAbs]
    rw [zWeightField, h1]
    simp [zPositiveNumber, jsLeZero, abs_nonpos_iff, hq]
  · intro s hs
    have h1 : preprocessWeight (.str s) = .str s := by
      simp [preprocessWeight, hs]
    rw [zWeightField, h1]
    rfl

/-- Witness for C7 (amended): `-500` as a number and as a string both
validate to `500`, and a non-numeric string is rejected. -/
theorem weight_validation_normalizes_witness :
    zWeightField (.num (.fin (-500))) = .ok (.fin 500) ∧
    zWeightField (.str "-500") = .ok (.fin 500) ∧
    zWeightField (.str "not a number") =
      .error ⟨"weightKg", "Expected number, received string"⟩ := by
  have habs : |(-500 : ℚ)| = 500 := by
    rw [abs_neg]
    exact abs_of_pos (by norm_num)
  refine ⟨?_, ?_, ?_⟩
  · have h := weight_validation_normalizes.1 (-500) (by norm_num)
    rwa [habs] at h
  · have h := weight_validation_normalizes.2.1 "-500" (-500) (by decide) (by norm_num)
    rwa [habs] at h
  · exact weight_validation_normalizes.2.2.2.1 "not a number" rfl
